import Mathlib

/-!
Verification of the field-level glossary-term reconciliation engine
(`AddDatasetSchemaTerms` in
`metadata-ingestion/src/datahub/ingestion/transformer/add_dataset_schema_terms.py`).

The Python classes are shallowly embedded as Lean structures; the two
operations `extend_field` and `transform_aspect` are translated line by
line.  External collaborators are passed as explicit arguments:

* the term supplier `get_terms_to_add` is a field of the config;
* the server fetch `ctx.graph.get_schema_metadata` becomes an optional
  function argument `graph : Option (String → Option SchemaMetadataClass)`
  (the outer `Option` models `self.ctx.graph` possibly being `None`);
* `builder.get_sys_time()` becomes an explicit `sysTime : Int` argument;
* Python exceptions (failed `assert`, `AttributeError` on `None` or on a
  wrongly-typed aspect) become `Except.error`.
-/

/-- Embeds `GlossaryTermAssociationClass`: a glossary-term association,
identified by its `urn`.  Other descriptive attributes are not touched by
the reconciliation logic and are left out of the embedding. -/
structure GlossaryTermAssociationClass where
  urn : String
deriving Repr, DecidableEq

/-- Embeds `AuditStampClass`: a timestamp plus an actor identifier. -/
structure AuditStampClass where
  time : Int
  actor : String
deriving Repr, DecidableEq

/-- Embeds `GlossaryTermsClass`: an ordered term list plus an audit stamp. -/
structure GlossaryTermsClass where
  terms : List GlossaryTermAssociationClass
  auditStamp : AuditStampClass
deriving Repr, DecidableEq

/-- Embeds `SchemaFieldClass`: a field path plus an optional glossary-term
annotation (`glossaryTerms` is `Optional` in the Python schema classes).
Attributes the transformer never touches are omitted. -/
structure SchemaFieldClass where
  fieldPath : String
  glossaryTerms : Option GlossaryTermsClass
deriving Repr, DecidableEq

/-- Embeds `SchemaMetadataClass`: the aspect payload carrying the ordered
schema-field list. -/
structure SchemaMetadataClass where
  fields : List SchemaFieldClass
deriving Repr, DecidableEq

/-- Embeds `TransformerSemantics` (configuration enum). -/
inductive TransformerSemantics where
  | OVERWRITE
  | PATCH
deriving Repr, DecidableEq

/-- Embeds `AddDatasetSchemaTermsConfig` together with the fields it
inherits from `TransformerSemanticsConfigModel` (`semantics`,
`replace_existing`). -/
structure AddDatasetSchemaTermsConfig where
  get_terms_to_add : String → List GlossaryTermAssociationClass
  semantics : TransformerSemantics
  replace_existing : Bool

/-- The hard-coded actor used when a fresh audit stamp is minted
(`actor="urn:li:corpUser:restEmitter"` in `extend_field`). -/
def restEmitterActor : String := "urn:li:corpUser:restEmitter"

/-- The list `all_terms` just before delta filtering in `extend_field`:
the supplier result, with the field's existing terms appended when the
field carries an annotation and `replace_existing` is false
(`all_terms.extend(schema_field.glossaryTerms.terms)`). -/
def desiredTerms (config : AddDatasetSchemaTermsConfig)
    (schema_field : SchemaFieldClass) : List GlossaryTermAssociationClass :=
  let all_terms := config.get_terms_to_add schema_field.fieldPath
  match schema_field.glossaryTerms with
  | some gt => if config.replace_existing = false then all_terms ++ gt.terms else all_terms
  | none => all_terms

/-- The `server_terms` list of `extend_field`: the server field's terms
when the server field exists and carries an annotation, `[]` otherwise. -/
def serverTermsOf (server_field : Option SchemaFieldClass) :
    List GlossaryTermAssociationClass :=
  match server_field with
  | some sf =>
      match sf.glossaryTerms with
      | some gt => gt.terms
      | none => []
  | none => []

/-- The `terms_to_add` list of `extend_field` before the empty-fallback:
when the server field exists and carries an annotation, the desired terms
whose urn is not among the server term urns; `[]` otherwise (the Python
loop body only runs inside the `server_field.glossaryTerms is not None`
branch). -/
def deltaTerms (config : AddDatasetSchemaTermsConfig)
    (schema_field : SchemaFieldClass) (server_field : Option SchemaFieldClass) :
    List GlossaryTermAssociationClass :=
  match server_field with
  | some sf =>
      match sf.glossaryTerms with
      | some gt =>
          (desiredTerms config schema_field).filter
            (fun term => !((gt.terms.map (·.urn)).contains term.urn))
      | none => []
  | none => []

/-- Embeds `AddDatasetSchemaTerms.extend_field`.  `sysTime` stands for
`builder.get_sys_time()`. -/
def extend_field (config : AddDatasetSchemaTermsConfig) (sysTime : Int)
    (schema_field : SchemaFieldClass) (server_field : Option SchemaFieldClass) :
    SchemaFieldClass :=
  let all_terms0 := config.get_terms_to_add schema_field.fieldPath
  if all_terms0.length = 0 then
    -- return input schema field as there is no terms to add
    schema_field
  else
    let all_terms := desiredTerms config schema_field
    let server_terms := serverTermsOf server_field
    let terms_to_add0 := deltaTerms config schema_field server_field
    -- Set terms_to_add to all_terms if server terms were not present
    let terms_to_add := if terms_to_add0.length = 0 then all_terms else terms_to_add0
    let stamp : AuditStampClass :=
      match schema_field.glossaryTerms with
      | some gt => gt.auditStamp
      | none => { time := sysTime, actor := restEmitterActor }
    { schema_field with
        glossaryTerms := some { terms := terms_to_add ++ server_terms, auditStamp := stamp } }

/-- The dynamic Python value passed to `transform_aspect` as `aspect`:
either `None`, a `SchemaMetadataClass` instance, or a value of some other
type (`wrongType`), which carries none of the schema-metadata attributes. -/
inductive PyAspect where
  | none
  | schemaMetadata (sm : SchemaMetadataClass)
  | wrongType
deriving Repr

/-- Python-dict lookup over the insertion sequence of
`server_field_map[field.fieldPath] = field`: the last inserted field with
the given path wins. -/
def serverFieldMapGet (server_fields : List SchemaFieldClass) (p : String) :
    Option SchemaFieldClass :=
  server_fields.reverse.find? (fun f => f.fieldPath == p)

/-- Embeds `AddDatasetSchemaTerms.transform_aspect`.  Python exceptions are
`Except.error`:

* a `wrongType` aspect raises inside the opening `assert` when its third
  disjunct reads the missing `.field` attribute;
* `PATCH` with `self.ctx.graph = None` fails `assert self.ctx.graph`;
* a `None` aspect passes the opening `assert` (first disjunct) but raises
  `AttributeError` at the first later read of `schema_metadata_aspect.fields`,
  before any call to `extend_field`. -/
def transform_aspect (config : AddDatasetSchemaTermsConfig)
    (graph : Option (String → Option SchemaMetadataClass)) (sysTime : Int)
    (entity_urn : String) (aspect : PyAspect) : Except String SchemaMetadataClass :=
  match aspect with
  | .wrongType => .error "AttributeError: no attribute field"
  | .none =>
      match config.semantics, graph with
      | .PATCH, Option.none => .error "AssertionError: self.ctx.graph"
      | _, _ => .error "AttributeError: NoneType has no attribute fields"
  | .schemaMetadata sm =>
      match config.semantics with
      | .OVERWRITE =>
          .ok { fields := sm.fields.map
                  (fun f => extend_field config sysTime f Option.none) }
      | .PATCH =>
          match graph with
          | Option.none => .error "AssertionError: self.ctx.graph"
          | some g =>
              match g entity_urn with
              | Option.none =>
                  .ok { fields := sm.fields.map
                          (fun f => extend_field config sysTime f Option.none) }
              | some server_aspect =>
                  let input_field_path := sm.fields.map (·.fieldPath)
                  let server_field_to_add := server_aspect.fields.filter
                      (fun f => !(input_field_path.contains f.fieldPath))
                  let working := sm.fields ++ server_field_to_add
                  .ok { fields := working.map
                          (fun f => extend_field config sysTime f
                            (serverFieldMapGet server_aspect.fields f.fieldPath)) }

/-- The term list of a field's annotation (`[]` when the field carries no
annotation); used to state per-field properties. -/
def fieldTerms (f : SchemaFieldClass) : List GlossaryTermAssociationClass :=
  match f.glossaryTerms with
  | some gt => gt.terms
  | none => []

/-- The audit stamp of a field's annotation, when one exists. -/
def stampOfField (f : SchemaFieldClass) : Option AuditStampClass :=
  f.glossaryTerms.map (·.auditStamp)

/-! ### General lemmas about `extend_field` -/

/-- `extend_field` never changes the field path. -/
theorem extend_field_fieldPath (config : AddDatasetSchemaTermsConfig) (t : Int)
    (f : SchemaFieldClass) (sf : Option SchemaFieldClass) :
    (extend_field config t f sf).fieldPath = f.fieldPath := by
  simp only [extend_field]
  split <;> rfl

/-- On the short-circuit path (empty supplier result) the field comes back
unchanged. -/
theorem extend_field_empty_supplier (config : AddDatasetSchemaTermsConfig) (t : Int)
    (f : SchemaFieldClass) (sf : Option SchemaFieldClass)
    (h : config.get_terms_to_add f.fieldPath = []) :
    extend_field config t f sf = f := by
  simp [extend_field, h]

/-- When the supplier result is non-empty, the result's annotation is
`terms_to_add ++ server_terms` with the stamp preserved-or-minted. -/
theorem extend_field_eq_of_ne (config : AddDatasetSchemaTermsConfig) (t : Int)
    (f : SchemaFieldClass) (sf : Option SchemaFieldClass)
    (h : config.get_terms_to_add f.fieldPath ≠ []) :
    extend_field config t f sf =
      ⟨f.fieldPath, some
        ⟨(if (deltaTerms config f sf).length = 0 then desiredTerms config f
          else deltaTerms config f sf) ++ serverTermsOf sf,
         (match f.glossaryTerms with
          | some gt => gt.auditStamp
          | none => ⟨t, restEmitterActor⟩)⟩⟩ := by
  rw [extend_field]
  rw [if_neg (by simpa using h)]

/-! ### Concrete fixtures used by witnesses and counterexamples -/

/-- Concrete glossary term `T1`. -/
def termA : GlossaryTermAssociationClass := ⟨"urn:li:glossaryTerm:A"⟩

/-- Concrete glossary term `T2`. -/
def termB : GlossaryTermAssociationClass := ⟨"urn:li:glossaryTerm:B"⟩

/-- Concrete glossary term `T3`. -/
def termC : GlossaryTermAssociationClass := ⟨"urn:li:glossaryTerm:C"⟩

/-- A pre-existing audit stamp (as stored on a field or on the server). -/
def oldStamp : AuditStampClass := ⟨100, "urn:li:corpUser:oldIngest"⟩

/-- An annotation holding `[T3]` with the pre-existing stamp. -/
def gtC : GlossaryTermsClass := ⟨[termC], oldStamp⟩

/-- A local field that already carries annotation `[T3]`. -/
def fieldWithC : SchemaFieldClass := ⟨"age", some gtC⟩

/-- A local field with no annotation. -/
def fieldNoTerms : SchemaFieldClass := ⟨"user.email", none⟩

/-- A config whose supplier returns nothing for every path. -/
def cfgEmpty : AddDatasetSchemaTermsConfig :=
  ⟨fun _ => [], TransformerSemantics.OVERWRITE, true⟩

/-- A config whose supplier returns `[T1, T2]` for every path. -/
def cfgAB : AddDatasetSchemaTermsConfig :=
  ⟨fun _ => [termA, termB], TransformerSemantics.OVERWRITE, true⟩

/-- A config whose supplier returns `[T1]` for every path, with
`replace_existing = false`. -/
def cfgAonly : AddDatasetSchemaTermsConfig :=
  ⟨fun _ => [termA], TransformerSemantics.OVERWRITE, false⟩

/-! ### Claims -/

/-- C5: Preservation on empty supplier — a field whose fieldPath the
supplier maps to `[]` is returned by `extend_field` unmodified, whatever
the server field is. -/
theorem C5_preservation_on_empty_supplier (config : AddDatasetSchemaTermsConfig)
    (t : Int) (f : SchemaFieldClass) (sf : Option SchemaFieldClass)
    (h : config.get_terms_to_add f.fieldPath = []) :
    extend_field config t f sf = f :=
  extend_field_empty_supplier config t f sf h

/-- Witness for C5 at a concrete field carrying annotation `[T3]`. -/
theorem C5_witness :
    extend_field cfgEmpty 0 fieldWithC Option.none = fieldWithC :=
  C5_preservation_on_empty_supplier cfgEmpty 0 fieldWithC Option.none rfl

/-- C7: AuditStamp provenance — whenever a new annotation is constructed
(supplier result non-empty), its stamp is the field's prior stamp when one
existed, and otherwise the freshly minted stamp
`⟨sysTime, "urn:li:corpUser:restEmitter"⟩`. -/
theorem C7_audit_stamp_provenance (config : AddDatasetSchemaTermsConfig)
    (t : Int) (f : SchemaFieldClass) (sf : Option SchemaFieldClass)
    (h : config.get_terms_to_add f.fieldPath ≠ []) :
    stampOfField (extend_field config t f sf) =
      some ((f.glossaryTerms.map (·.auditStamp)).getD ⟨t, restEmitterActor⟩) := by
  rw [extend_field_eq_of_ne config t f sf h]
  cases hgt : f.glossaryTerms <;> simp [stampOfField, hgt]

/-- Witness for C7 at a concrete field with no prior annotation: the fresh
stamp is minted. -/
theorem C7_witness :
    stampOfField (extend_field cfgAB 7 fieldNoTerms Option.none) =
      some ((fieldNoTerms.glossaryTerms.map (·.auditStamp)).getD ⟨7, restEmitterActor⟩) :=
  C7_audit_stamp_provenance cfgAB 7 fieldNoTerms Option.none (by decide)

/-- C3: Empty-delta fallback — when the filtered delta is empty and the
supplier result is non-empty, the terms added are the full desired
sequence (output terms = desired ++ server terms). -/
theorem C3_empty_delta_fallback (config : AddDatasetSchemaTermsConfig)
    (t : Int) (f : SchemaFieldClass) (sf : Option SchemaFieldClass)
    (hne : config.get_terms_to_add f.fieldPath ≠ [])
    (hdelta : deltaTerms config f sf = []) :
    fieldTerms (extend_field config t f sf) = desiredTerms config f ++ serverTermsOf sf := by
  rw [extend_field_eq_of_ne config t f sf hne]
  simp [fieldTerms, hdelta]

/-- Witness for C3: no server entry and supplier `[T1, T2]` gives exactly
`[T1, T2]`. -/
theorem C3_witness :
    deltaTerms cfgAB fieldNoTerms Option.none = [] ∧
    fieldTerms (extend_field cfgAB 0 fieldNoTerms Option.none) =
      desiredTerms cfgAB fieldNoTerms ++ serverTermsOf Option.none ∧
    fieldTerms (extend_field cfgAB 0 fieldNoTerms Option.none) = [termA, termB] :=
  ⟨rfl, C3_empty_delta_fallback cfgAB 0 fieldNoTerms Option.none (by decide) rfl, by decide⟩

/-- C8: with `replace_existing = false` and an existing annotation, the
existing terms are appended after the supplier's terms before delta
filtering; with no server data the output terms are exactly
supplier-then-existing. -/
theorem C8_replace_existing_false (config : AddDatasetSchemaTermsConfig)
    (t : Int) (f : SchemaFieldClass) (gt : GlossaryTermsClass)
    (hr : config.replace_existing = false)
    (hgt : f.glossaryTerms = some gt)
    (hne : config.get_terms_to_add f.fieldPath ≠ []) :
    desiredTerms config f = config.get_terms_to_add f.fieldPath ++ gt.terms ∧
    fieldTerms (extend_field config t f Option.none) =
      config.get_terms_to_add f.fieldPath ++ gt.terms := by
  have hd : desiredTerms config f = config.get_terms_to_add f.fieldPath ++ gt.terms := by
    simp [desiredTerms, hgt, hr]
  refine ⟨hd, ?_⟩
  rw [extend_field_eq_of_ne config t f Option.none hne]
  simp [fieldTerms, deltaTerms, serverTermsOf, hd]

/-- Witness for C8: existing `[T3]`, supplier `[T1]`, no server data:
output is `[T1, T3]`. -/
theorem C8_witness :
    fieldTerms (extend_field cfgAonly 0 fieldWithC Option.none) = [termA, termC] :=
  ((C8_replace_existing_false cfgAonly 0 fieldWithC gtC rfl rfl (by decide)).2).trans rfl

/-! ### Delta-filtering lemmas (for the dedup analysis) -/

/-- The delta list is a sublist of the desired list. -/
theorem deltaTerms_sublist (config : AddDatasetSchemaTermsConfig)
    (f : SchemaFieldClass) (sf : Option SchemaFieldClass) :
    List.Sublist (deltaTerms config f sf) (desiredTerms config f) := by
  cases sf with
  | none => exact List.nil_sublist _
  | some s =>
      obtain ⟨p, gts⟩ := s
      cases gts with
      | none => exact List.nil_sublist _
      | some gt => exact List.filter_sublist _

/-- Every delta term's urn is absent from the server term urns. -/
theorem deltaTerms_urn_not_server (config : AddDatasetSchemaTermsConfig)
    (f : SchemaFieldClass) (sf : Option SchemaFieldClass)
    (a : GlossaryTermAssociationClass) (h : a ∈ deltaTerms config f sf) :
    a.urn ∉ (serverTermsOf sf).map (·.urn) := by
  cases sf with
  | none => simp [deltaTerms] at h
  | some s =>
      obtain ⟨p, gts⟩ := s
      cases gts with
      | none => simp [deltaTerms] at h
      | some gt =>
          have h2 := (List.mem_filter.1 h).2
          simp only [serverTermsOf]
          simpa using h2

/-! ### Concrete fixtures for the PATCH policy -/

/-- Supplier mapping `"user.email"` to `[T1, T2]` and everything else to
`[]`, running under `PATCH`. -/
def cfgEmail : AddDatasetSchemaTermsConfig :=
  ⟨fun p => if p == "user.email" then [termA, termB] else [],
   TransformerSemantics.PATCH, false⟩

/-- Server aspect: field `"user.email"` carrying `[T1]` with an old stamp. -/
def serverEmailSM : SchemaMetadataClass :=
  ⟨[⟨"user.email", some ⟨[termA], oldStamp⟩⟩]⟩

/-- Local aspect: field `"user.email"` with no annotation. -/
def localEmailSM : SchemaMetadataClass := ⟨[fieldNoTerms]⟩

/-- Server fetch returning `serverEmailSM` for any entity. -/
def graphEmail : String → Option SchemaMetadataClass := fun _ => some serverEmailSM

/-- Supplier returning `[T1]` for every path, running under `PATCH`. -/
def cfgAPatch : AddDatasetSchemaTermsConfig :=
  ⟨fun _ => [termA], TransformerSemantics.PATCH, false⟩

/-- Server aspect: field `"f"` carrying `[T1]` with an old stamp. -/
def serverASM : SchemaMetadataClass := ⟨[⟨"f", some ⟨[termA], oldStamp⟩⟩]⟩

/-- Local aspect: field `"f"` with no annotation. -/
def localFSM : SchemaMetadataClass := ⟨[⟨"f", none⟩]⟩

/-- Server fetch returning `serverASM` for any entity. -/
def graphA : String → Option SchemaMetadataClass := fun _ => some serverASM

/-- C4: concrete patch-delta scenario — local `"user.email"` with no
annotation, supplier `[T1, T2]`, server `[T1]`: output terms are exactly
`[T2, T1]` and the stamp is freshly minted (not the server's). -/
theorem C4_patch_delta_scenario :
    transform_aspect cfgEmail (some graphEmail) 1234 "urn:li:dataset:d"
        (PyAspect.schemaMetadata localEmailSM) =
      Except.ok ⟨[⟨"user.email", some ⟨[termB, termA], ⟨1234, restEmitterActor⟩⟩⟩]⟩ ∧
    (⟨1234, restEmitterActor⟩ : AuditStampClass) ≠ oldStamp := by
  constructor
  · rfl
  · decide

/-- C1 counterexample: supplier `[T1]`, server already carries `[T1]` on
field `"f"` — the delta is empty, the fallback re-adds the full desired
list, and the server terms are appended after it, so the output field
carries `[T1, T1]`: two associations with the same urn. -/
theorem C1_counterexample :
    transform_aspect cfgAPatch (some graphA) 0 "urn:li:dataset:d"
        (PyAspect.schemaMetadata localFSM) =
      Except.ok ⟨[⟨"f", some ⟨[termA, termA], ⟨0, restEmitterActor⟩⟩⟩]⟩ ∧
    ¬ (([termA, termA].map (·.urn)).Nodup) := by
  constructor
  · rfl
  · decide

/-- C1 (amended): the output term sequence of `extend_field` is
duplicate-free by urn provided the input field's own annotation is
duplicate-free, the desired sequence is duplicate-free, the server terms
are duplicate-free, and the filtered delta is non-empty or no server term
exists (the counterexample shows the invariant fails without the last
hypothesis). -/
theorem C1_dedup_amended (config : AddDatasetSchemaTermsConfig) (t : Int)
    (f : SchemaFieldClass) (sf : Option SchemaFieldClass)
    (h0 : ((fieldTerms f).map (·.urn)).Nodup)
    (hd : ((desiredTerms config f).map (·.urn)).Nodup)
    (hs : ((serverTermsOf sf).map (·.urn)).Nodup)
    (hne : deltaTerms config f sf ≠ [] ∨ serverTermsOf sf = []) :
    ((fieldTerms (extend_field config t f sf)).map (·.urn)).Nodup := by
  by_cases hsup : config.get_terms_to_add f.fieldPath = []
  · rw [extend_field_empty_supplier config t f sf hsup]
    exact h0
  · rw [extend_field_eq_of_ne config t f sf hsup]
    simp only [fieldTerms]
    rcases hne with hd1 | hs1
    · rw [if_neg (by simpa using hd1)]
      rw [List.map_append, List.nodup_append]
      refine ⟨hd.sublist ((deltaTerms_sublist config f sf).map _), hs, ?_⟩
      intro a ha hb
      obtain ⟨t', ht', rfl⟩ := List.mem_map.1 ha
      exact deltaTerms_urn_not_server config f sf t' ht' hb
    · rw [hs1, List.append_nil]
      by_cases hdl : (deltaTerms config f sf).length = 0
      · rw [if_pos hdl]; exact hd
      · rw [if_neg hdl]
        exact hd.sublist ((deltaTerms_sublist config f sf).map _)

/-- Witness for the amended C1 at a concrete input with no server terms. -/
theorem C1_dedup_amended_witness :
    ((fieldTerms (extend_field cfgAonly 0 fieldNoTerms Option.none)).map (·.urn)).Nodup :=
  C1_dedup_amended cfgAonly 0 fieldNoTerms Option.none (by decide) (by decide)
    (by decide) (Or.inr rfl)

/-- C9: any aspect that is not a well-formed `SchemaMetadataClass` payload
makes `transform_aspect` fail before any per-field merge runs. -/
theorem C9_malformed_fail_fast (config : AddDatasetSchemaTermsConfig)
    (graph : Option (String → Option SchemaMetadataClass)) (t : Int)
    (e : String) (a : PyAspect)
    (h : ∀ sm, a ≠ PyAspect.schemaMetadata sm) :
    ∃ msg, transform_aspect config graph t e a = Except.error msg := by
  cases a with
  | wrongType => exact ⟨_, rfl⟩
  | schemaMetadata sm => exact absurd rfl (h sm)
  | none =>
      rcases hs : config.semantics with _ | _ <;> rcases graph with _ | g
      · exact ⟨"AttributeError: NoneType has no attribute fields",
          by simp [transform_aspect, hs]⟩
      · exact ⟨"AttributeError: NoneType has no attribute fields",
          by simp [transform_aspect, hs]⟩
      · exact ⟨"AssertionError: self.ctx.graph",
          by simp [transform_aspect, hs]⟩
      · exact ⟨"AttributeError: NoneType has no attribute fields",
          by simp [transform_aspect, hs]⟩

/-- Witness for C9 at the `wrongType` aspect. -/
theorem C9_witness :
    ∃ msg, transform_aspect cfgAB Option.none 0 "urn:li:dataset:d" PyAspect.wrongType =
      Except.error msg :=
  C9_malformed_fail_fast cfgAB Option.none 0 "urn:li:dataset:d" PyAspect.wrongType
    (fun _ h => PyAspect.noConfusion h)

/-! ### Shape lemmas for `transform_aspect` -/

/-- Under `OVERWRITE` the transform extends every local field with no
server data. -/
theorem transform_aspect_overwrite_eq (config : AddDatasetSchemaTermsConfig)
    (graph : Option (String → Option SchemaMetadataClass)) (t : Int)
    (e : String) (sm : SchemaMetadataClass)
    (ho : config.semantics = TransformerSemantics.OVERWRITE) :
    transform_aspect config graph t e (PyAspect.schemaMetadata sm) =
      Except.ok ⟨sm.fields.map (fun f => extend_field config t f Option.none)⟩ := by
  simp [transform_aspect, ho]

/-- Under `PATCH`, when the server fetch returns nothing, the transform
extends every local field with no server data. -/
theorem transform_aspect_patch_nofetch_eq (config : AddDatasetSchemaTermsConfig)
    (g : String → Option SchemaMetadataClass) (t : Int) (e : String)
    (sm : SchemaMetadataClass)
    (hp : config.semantics = TransformerSemantics.PATCH) (hg : g e = none) :
    transform_aspect config (some g) t e (PyAspect.schemaMetadata sm) =
      Except.ok ⟨sm.fields.map (fun f => extend_field config t f Option.none)⟩ := by
  simp [transform_aspect, hp, hg]

/-- Under `PATCH`, when the server fetch returns an aspect, the working
list is the local fields followed by the server-only fields, each extended
against the server-field map. -/
theorem transform_aspect_patch_eq (config : AddDatasetSchemaTermsConfig)
    (g : String → Option SchemaMetadataClass) (t : Int) (e : String)
    (sm serverSM : SchemaMetadataClass)
    (hp : config.semantics = TransformerSemantics.PATCH)
    (hg : g e = some serverSM) :
    transform_aspect config (some g) t e (PyAspect.schemaMetadata sm) =
      Except.ok ⟨(sm.fields ++ serverSM.fields.filter
            (fun f => !((sm.fields.map (·.fieldPath)).contains f.fieldPath))).map
          (fun f => extend_field config t f
            (serverFieldMapGet serverSM.fields f.fieldPath))⟩ := by
  simp [transform_aspect, hp, hg]

/-- Extending every field against the server map keeps the fieldPath list. -/
theorem map_extendPatch_fieldPath (config : AddDatasetSchemaTermsConfig) (t : Int)
    (srv : List SchemaFieldClass) (l : List SchemaFieldClass) :
    ((l.map (fun f => extend_field config t f
        (serverFieldMapGet srv f.fieldPath))).map (·.fieldPath)) =
      l.map (·.fieldPath) := by
  induction l with
  | nil => rfl
  | cons x xs ih => simp [extend_field_fieldPath, ih]

/-- Extending every field with no server data keeps the fieldPath list. -/
theorem map_extendNone_fieldPath (config : AddDatasetSchemaTermsConfig) (t : Int)
    (l : List SchemaFieldClass) :
    ((l.map (fun f => extend_field config t f Option.none)).map (·.fieldPath)) =
      l.map (·.fieldPath) := by
  induction l with
  | nil => rfl
  | cons x xs ih => simp [extend_field_fieldPath, ih]

/-- C2: no data loss under PATCH — when the server fetch returns an
aspect, every fieldPath of the server aspect or of the local aspect occurs
in the output field list. -/
theorem C2_no_data_loss (config : AddDatasetSchemaTermsConfig)
    (g : String → Option SchemaMetadataClass) (t : Int) (e : String)
    (sm serverSM : SchemaMetadataClass) (p : String)
    (hp : config.semantics = TransformerSemantics.PATCH)
    (hg : g e = some serverSM)
    (hmem : p ∈ serverSM.fields.map (·.fieldPath) ∨ p ∈ sm.fields.map (·.fieldPath)) :
    ∃ out, transform_aspect config (some g) t e (PyAspect.schemaMetadata sm) =
        Except.ok out ∧
      out.fields.map (·.fieldPath) =
        sm.fields.map (·.fieldPath) ++
          (serverSM.fields.filter
            (fun f => !((sm.fields.map (·.fieldPath)).contains f.fieldPath))).map
            (·.fieldPath) ∧
      p ∈ out.fields.map (·.fieldPath) := by
  refine ⟨_, transform_aspect_patch_eq config g t e sm serverSM hp hg, ?_, ?_⟩ <;>
    rw [show (⟨(sm.fields ++ serverSM.fields.filter
          (fun f => !((sm.fields.map (·.fieldPath)).contains f.fieldPath))).map
        (fun f => extend_field config t f
          (serverFieldMapGet serverSM.fields f.fieldPath))⟩ : SchemaMetadataClass).fields =
        (sm.fields ++ serverSM.fields.filter
          (fun f => !((sm.fields.map (·.fieldPath)).contains f.fieldPath))).map
        (fun f => extend_field config t f
          (serverFieldMapGet serverSM.fields f.fieldPath)) from rfl] <;>
    rw [map_extendPatch_fieldPath, List.map_append]
  by_cases hloc : p ∈ sm.fields.map (·.fieldPath)
  · exact List.mem_append_left _ hloc
  · rcases hmem with hserver | hlocal
    · obtain ⟨f, hf, rfl⟩ := List.mem_map.1 hserver
      refine List.mem_append_right _ (List.mem_map.2 ⟨f, List.mem_filter.2 ⟨hf, ?_⟩, rfl⟩)
      simpa using hloc
    · exact absurd hlocal hloc

/-- Witness for C2 at the concrete PATCH fixtures. -/
theorem C2_witness :
    ∃ out, transform_aspect cfgEmail (some graphEmail) 0 "urn:li:dataset:d"
        (PyAspect.schemaMetadata localEmailSM) = Except.ok out ∧
      out.fields.map (·.fieldPath) =
        localEmailSM.fields.map (·.fieldPath) ++
          (serverEmailSM.fields.filter
            (fun f => !((localEmailSM.fields.map (·.fieldPath)).contains f.fieldPath))).map
            (·.fieldPath) ∧
      "user.email" ∈ out.fields.map (·.fieldPath) :=
  C2_no_data_loss cfgEmail graphEmail 0 "urn:li:dataset:d" localEmailSM serverEmailSM
    "user.email" rfl rfl (Or.inl (by decide))

/-! ### Idempotence under OVERWRITE -/

/-- With `replace_existing = true` and no server data, a non-empty
supplier result becomes the whole output term list. -/
theorem extend_field_none_terms (config : AddDatasetSchemaTermsConfig) (t : Int)
    (f : SchemaFieldClass)
    (hr : config.replace_existing = true)
    (hne : config.get_terms_to_add f.fieldPath ≠ []) :
    fieldTerms (extend_field config t f Option.none) =
      config.get_terms_to_add f.fieldPath := by
  rw [extend_field_eq_of_ne config t f Option.none hne]
  cases hgt : f.glossaryTerms <;>
    simp [fieldTerms, deltaTerms, serverTermsOf, desiredTerms, hgt, hr]

/-- Applying the OVERWRITE per-field step twice gives the same path and
term list as applying it once. -/
theorem extend_field_overwrite_idem (config : AddDatasetSchemaTermsConfig)
    (t1 t2 : Int) (f : SchemaFieldClass)
    (hr : config.replace_existing = true) :
    (extend_field config t2 (extend_field config t1 f Option.none) Option.none).fieldPath
      = (extend_field config t1 f Option.none).fieldPath ∧
    fieldTerms (extend_field config t2 (extend_field config t1 f Option.none) Option.none)
      = fieldTerms (extend_field config t1 f Option.none) := by
  refine ⟨extend_field_fieldPath config t2 _ Option.none, ?_⟩
  by_cases hsup : config.get_terms_to_add f.fieldPath = []
  · rw [extend_field_empty_supplier config t1 f Option.none hsup,
        extend_field_empty_supplier config t2 f Option.none hsup]
  · have hp : (extend_field config t1 f Option.none).fieldPath = f.fieldPath :=
      extend_field_fieldPath config t1 f Option.none
    have h1 := extend_field_none_terms config t1 f hr hsup
    have h2 := extend_field_none_terms config t2 (extend_field config t1 f Option.none)
      hr (by rw [hp]; exact hsup)
    rw [h2, hp, h1]

/-- Applying the per-field OVERWRITE step twice to every field of a list
gives the same path/term-list pairs as applying it once. -/
theorem map_extend_overwrite_idem (config : AddDatasetSchemaTermsConfig)
    (t1 t2 : Int) (l : List SchemaFieldClass)
    (hr : config.replace_existing = true) :
    ((l.map (fun f => extend_field config t1 f Option.none)).map
        (fun f => extend_field config t2 f Option.none)).map
        (fun f => (f.fieldPath, fieldTerms f)) =
      (l.map (fun f => extend_field config t1 f Option.none)).map
        (fun f => (f.fieldPath, fieldTerms f)) := by
  induction l with
  | nil => rfl
  | cons x xs ih =>
      have hh := extend_field_overwrite_idem config t1 t2 x hr
      simp only [List.map_cons]
      rw [ih]
      simp [hh.1, hh.2]

/-- C6: idempotence under OVERWRITE — with `replace_existing = true`,
running the transform on its own output (same supplier, any later system
time) yields the same per-field term lists as the single application. -/
theorem C6_idempotence_overwrite (config : AddDatasetSchemaTermsConfig)
    (g1 g2 : Option (String → Option SchemaMetadataClass)) (t1 t2 : Int)
    (e1 e2 : String) (sm out1 out2 : SchemaMetadataClass)
    (ho : config.semantics = TransformerSemantics.OVERWRITE)
    (hr : config.replace_existing = true)
    (h1 : transform_aspect config g1 t1 e1 (PyAspect.schemaMetadata sm) = Except.ok out1)
    (h2 : transform_aspect config g2 t2 e2 (PyAspect.schemaMetadata out1) = Except.ok out2) :
    out2.fields.map (fun f => (f.fieldPath, fieldTerms f)) =
      out1.fields.map (fun f => (f.fieldPath, fieldTerms f)) := by
  have hout1 : out1 = ⟨sm.fields.map (fun f => extend_field config t1 f Option.none)⟩ :=
    (Except.ok.inj ((transform_aspect_overwrite_eq config g1 t1 e1 sm ho).symm.trans h1)).symm
  have hout2 : out2 = ⟨out1.fields.map (fun f => extend_field config t2 f Option.none)⟩ :=
    (Except.ok.inj ((transform_aspect_overwrite_eq config g2 t2 e2 out1 ho).symm.trans h2)).symm
  rw [hout2, hout1]
  exact map_extend_overwrite_idem config t1 t2 sm.fields hr

/-- An OVERWRITE output used by the C6 witness. -/
def outAB : SchemaMetadataClass :=
  ⟨[⟨"user.email", some ⟨[termA, termB], ⟨1, restEmitterActor⟩⟩⟩]⟩

/-- Witness for C6 at concrete inputs (two runs with different system
times). -/
theorem C6_witness :
    outAB.fields.map (fun f => (f.fieldPath, fieldTerms f)) =
      outAB.fields.map (fun f => (f.fieldPath, fieldTerms f)) :=
  C6_idempotence_overwrite cfgAB Option.none Option.none 1 2 "e1" "e2"
    localEmailSM outAB outAB rfl rfl rfl rfl

/-- C10: output field ordering — under OVERWRITE the output fieldPath list
is exactly the input's; under PATCH with no fetched server aspect it is
also exactly the input's; under PATCH with a fetched server aspect the
server-only fieldPaths are appended after all local ones, in server
order. -/
theorem C10_field_ordering (config : AddDatasetSchemaTermsConfig)
    (graph : Option (String → Option SchemaMetadataClass)) (t : Int)
    (e : String) (sm : SchemaMetadataClass) :
    (config.semantics = TransformerSemantics.OVERWRITE →
      ∃ out, transform_aspect config graph t e (PyAspect.schemaMetadata sm) =
          Except.ok out ∧
        out.fields.map (·.fieldPath) = sm.fields.map (·.fieldPath)) ∧
    (∀ g, config.semantics = TransformerSemantics.PATCH → graph = some g →
      g e = none →
      ∃ out, transform_aspect config graph t e (PyAspect.schemaMetadata sm) =
          Except.ok out ∧
        out.fields.map (·.fieldPath) = sm.fields.map (·.fieldPath)) ∧
    (∀ g serverSM, config.semantics = TransformerSemantics.PATCH → graph = some g →
      g e = some serverSM →
      ∃ out, transform_aspect config graph t e (PyAspect.schemaMetadata sm) =
          Except.ok out ∧
        out.fields.map (·.fieldPath) =
          sm.fields.map (·.fieldPath) ++
            (serverSM.fields.filter
              (fun f => !((sm.fields.map (·.fieldPath)).contains f.fieldPath))).map
              (·.fieldPath)) := by
  refine ⟨?_, ?_, ?_⟩
  · intro ho
    exact ⟨_, transform_aspect_overwrite_eq config graph t e sm ho,
      map_extendNone_fieldPath config t sm.fields⟩
  · intro g hp hgr hg
    subst hgr
    exact ⟨_, transform_aspect_patch_nofetch_eq config g t e sm hp hg,
      map_extendNone_fieldPath config t sm.fields⟩
  · intro g serverSM hp hgr hg
    subst hgr
    refine ⟨_, transform_aspect_patch_eq config g t e sm serverSM hp hg, ?_⟩
    rw [show (⟨(sm.fields ++ serverSM.fields.filter
          (fun f => !((sm.fields.map (·.fieldPath)).contains f.fieldPath))).map
        (fun f => extend_field config t f
          (serverFieldMapGet serverSM.fields f.fieldPath))⟩ : SchemaMetadataClass).fields =
        (sm.fields ++ serverSM.fields.filter
          (fun f => !((sm.fields.map (·.fieldPath)).contains f.fieldPath))).map
        (fun f => extend_field config t f
          (serverFieldMapGet serverSM.fields f.fieldPath)) from rfl]
    rw [map_extendPatch_fieldPath, List.map_append]

/-- Witness for C10 at the concrete PATCH fixtures. -/
theorem C10_witness :
    ∃ out, transform_aspect cfgEmail (some graphEmail) 0 "urn:li:dataset:d"
        (PyAspect.schemaMetadata localEmailSM) = Except.ok out ∧
      out.fields.map (·.fieldPath) =
        localEmailSM.fields.map (·.fieldPath) ++
          (serverEmailSM.fields.filter
            (fun f => !((localEmailSM.fields.map (·.fieldPath)).contains f.fieldPath))).map
            (·.fieldPath) :=
  (C10_field_ordering cfgEmail (some graphEmail) 0 "urn:li:dataset:d"
    localEmailSM).2.2 graphEmail serverEmailSM rfl rfl rfl
